import Mathlib

/-
Verification of the todo-list application (Express + MySQL backend,
vanilla-JS frontend) against its natural-language specification.

The embedding models:
  - src/todo-app/backend/server.js: the four request handlers
    (GET /todos, POST /todos, PUT /todos/:id, DELETE /todos/:id),
  - the `todos` table declared in initSql:
      id INT AUTO_INCREMENT PRIMARY KEY,
      task VARCHAR(255) NOT NULL,
      status ENUM('active','completed') DEFAULT 'active',
      created_at DATETIME DEFAULT CURRENT_TIMESTAMP
    with MySQL strict-mode semantics (the MySQL default): assigning SQL
    NULL to the NOT NULL `task` column and assigning a string outside the
    enumeration to `status` both abort the statement with an error; the
    `status` column carries no NOT NULL constraint, so SQL NULL is a
    legal value for it.  The VARCHAR length bound and ENUM numeric-index
    coercion are abstracted (no claim exercises them).
  - src/todo-app/frontend/script.js: the status-toggle computation.

Timestamps are modelled as integers; the database clock (CURRENT_TIMESTAMP
at insert) and the Node process clock (new Date() in the POST response) are
separate parameters, as they are separate clocks in the code.
-/

namespace TodoApp

/-- Primitive JSON values as they arrive in a parsed request body.
Composite values (arrays, objects) are outside the model; every value a
claim mentions is primitive. -/
inductive Jval where
  | null
  | bool (b : Bool)
  | num (n : Int)
  | str (s : String)
deriving DecidableEq, Repr

/-- JavaScript truthiness of a primitive JSON value: null, false, 0 and
the empty string are falsy, everything else is truthy. -/
def Jval.truthy : Jval → Bool
  | .null => false
  | .bool b => b
  | .num n => decide (n ≠ 0)
  | .str s => decide (s ≠ "")

/-- JavaScript truthiness of an optional body field: a missing field reads
as undefined, which is falsy, so the JS test `!task` cannot distinguish a
missing field from a supplied falsy value. -/
def jsTruthy : Option Jval → Bool
  | none => false
  | some v => v.truthy

/-- The SQL value a JSON field is bound to by the mysql2 driver when used
as a statement parameter: `none` is SQL NULL; booleans become the literals
1/0; numbers their decimal text; strings themselves. -/
def Jval.sqlText : Jval → Option String
  | .null => none
  | .bool b => some (if b then "1" else "0")
  | .num n => some (toString n)
  | .str s => some s

/-- One row of the `todos` table.  `status` is an `Option` because the
ENUM column in initSql carries no NOT NULL constraint, so SQL NULL is a
legal stored value; a non-NULL stored value is a string. -/
structure Task where
  id : Nat
  task : String
  status : Option String
  created_at : Int
deriving DecidableEq, Repr

/-- The persistent state: the rows of the `todos` table plus the
AUTO_INCREMENT counter (MySQL starts it at 1). -/
structure Store where
  rows : List Task
  nextId : Nat
deriving DecidableEq, Repr

/-- The freshly initialized table: no rows, AUTO_INCREMENT at 1. -/
def Store.empty : Store := ⟨[], 1⟩

/-- JSON responses sent by the handlers: the GET success envelope, the
POST success envelope (echoing id, task value, status and a timestamp),
the PUT/DELETE envelope carrying a change count, and the error envelope
with its HTTP status code. -/
inductive Resp where
  | success (data : List Task)
  | created (id : Nat) (task : Jval) (status : String) (created_at : Int)
  | changes (message : String) (n : Nat)
  | error (code : Nat) (msg : String)
deriving DecidableEq, Repr

/-- Stand-in for the driver error message produced when the database
connection is unavailable (err.message in the handlers). -/
def storageErr : String := "storage unavailable"

/-- The comparison realised by ORDER BY created_at DESC: a row precedes
another when its created_at is at least as large. -/
def createdGE (a b : Task) : Prop := b.created_at ≤ a.created_at

instance : DecidableRel createdGE :=
  fun a b => inferInstanceAs (Decidable (b.created_at ≤ a.created_at))

instance : IsTotal Task createdGE :=
  ⟨fun a b => le_total b.created_at a.created_at⟩

instance : IsTrans Task createdGE :=
  ⟨fun _ _ _ h1 h2 => le_trans h2 h1⟩

/-- GET /todos: runs SELECT * FROM todos ORDER BY created_at DESC and
wraps the result rows in the success envelope; a failing query is reported
as a 400 with the driver message.  The ordered result is modelled by
insertion sort under `createdGE` (any sorted permutation; MySQL fixes no
order among equal timestamps). -/
def listTodos (dbUp : Bool) (s : Store) : Resp :=
  if dbUp then .success (s.rows.insertionSort createdGE) else .error 400 storageErr

/-- POST /todos: destructures `task` from the body, rejects it with
400 "Task content is required" when falsy (JS `!task`), otherwise runs
INSERT INTO todos (task) VALUES (?).  The inserted row takes the next
AUTO_INCREMENT id, the schema default status 'active' and the database
clock as created_at; the response echoes the request value and a timestamp
from the Node clock (new Date()), not the stored one.  The insert branch
is reached only when the field is present and truthy, so the `getD`
defaults never apply. -/
def postTodos (dbUp : Bool) (taskField : Option Jval) (dbNow serverNow : Int)
    (s : Store) : Resp × Store :=
  if jsTruthy taskField = false then
    (.error 400 "Task content is required", s)
  else if dbUp = false then
    (.error 400 storageErr, s)
  else
    let v := taskField.getD .null
    let text := v.sqlText.getD ""
    (.created s.nextId v "active" serverNow,
     ⟨s.rows ++ [⟨s.nextId, text, some "active", dbNow⟩], s.nextId + 1⟩)

/-- Strings accepted by the column ENUM('active','completed'). -/
def validStatus (st : String) : Bool := st == "active" || st == "completed"

/-- Strict-mode assignment of the optional `status = ?` clause to one row:
an absent field leaves the column alone, SQL NULL is stored as NULL (the
column is nullable), a string in the enumeration is stored, and any other
string aborts the statement. -/
def updStatus (statusField : Option Jval) (t : Task) : Except String Task :=
  match statusField with
  | none => .ok t
  | some v =>
    match v.sqlText with
    | none => .ok { t with status := none }
    | some st =>
      if validStatus st then .ok { t with status := some st }
      else .error "Data truncated for column status"

/-- Strict-mode application of the assembled SET clause to one row: the
`task = ?` clause stores the bound text but aborts on SQL NULL (the column
is NOT NULL), then the `status = ?` clause is applied. -/
def updRow (taskField statusField : Option Jval) (t : Task) : Except String Task :=
  match taskField with
  | none => updStatus statusField t
  | some v =>
    match v.sqlText with
    | none => .error "Column task cannot be null"
    | some txt => updStatus statusField { t with task := txt }

/-- Execution of UPDATE todos SET ... WHERE id = ? over the row list:
rows with the matching id receive the SET clause, the others are kept; an
assignment error on any matched row aborts the whole statement.  The
returned count is changedRows: the matched rows whose stored values
actually changed (the mysql2 default, where affectedRows for UPDATE also
counts only changed rows). -/
def dbUpdate (id : Nat) (tf sf : Option Jval) : List Task → Except String (List Task × Nat)
  | [] => .ok ([], 0)
  | t :: ts =>
    if t.id = id then
      match updRow tf sf t with
      | .error e => .error e
      | .ok t' =>
        match dbUpdate id tf sf ts with
        | .error e => .error e
        | .ok (ts', n) => .ok (t' :: ts', if t' = t then n else n + 1)
    else
      match dbUpdate id tf sf ts with
      | .error e => .error e
      | .ok (ts', n) => .ok (t :: ts', n)

/-- PUT /todos/:id: collects the body fields that are present (the JS test
is `!== undefined`, so a supplied null counts as present), rejects the
request with 400 "No fields to update" when both are absent — before any
query is issued — and otherwise runs the assembled UPDATE, reporting a
query error as 400 and success as the envelope carrying changedRows. -/
def putTodos (dbUp : Bool) (id : Nat) (taskField statusField : Option Jval)
    (s : Store) : Resp × Store :=
  if taskField.isNone && statusField.isNone then
    (.error 400 "No fields to update", s)
  else if dbUp = false then
    (.error 400 storageErr, s)
  else
    match dbUpdate id taskField statusField s.rows with
    | .error e => (.error 400 e, s)
    | .ok (rows', n) => (.changes "success" n, ⟨rows', s.nextId⟩)

/-- DELETE /todos/:id: runs DELETE FROM todos WHERE id = ? and reports
affectedRows (the number of rows removed) in the deleted envelope. -/
def deleteTodos (dbUp : Bool) (id : Nat) (s : Store) : Resp × Store :=
  if dbUp = false then
    (.error 400 storageErr, s)
  else
    (.changes "deleted" (s.rows.countP (fun t => t.id == id)),
     ⟨s.rows.filter (fun t => t.id != id), s.nextId⟩)

/-- Frontend toggleStatus (script.js): the status sent to the server is
'completed' when the current one is 'active' and 'active' otherwise. -/
def toggleStatus (currentStatus : String) : String :=
  if currentStatus == "active" then "completed" else "active"

/-- One request through the public HTTP surface, with the clock values and
storage availability it observes. -/
inductive Request where
  | post (dbUp : Bool) (taskField : Option Jval) (dbNow serverNow : Int)
  | put (dbUp : Bool) (id : Nat) (taskField statusField : Option Jval)
  | del (dbUp : Bool) (id : Nat)
  | get (dbUp : Bool)
deriving DecidableEq, Repr

/-- The store state after serving one request. -/
def execReq (r : Request) (s : Store) : Store :=
  match r with
  | .post dbUp tf dbNow serverNow => (postTodos dbUp tf dbNow serverNow s).2
  | .put dbUp id tf sf => (putTodos dbUp id tf sf s).2
  | .del dbUp id => (deleteTodos dbUp id s).2
  | .get _ => s

/-- The store state after serving a sequence of requests in order. -/
def execAll (reqs : List Request) (s : Store) : Store :=
  reqs.foldl (fun st r => execReq r st) s

/-! Auxiliary facts about the decimal rendering of numbers: the text the
driver binds for a numeric JSON value is never the empty string. -/

/-- The digit accumulator underlying Nat.repr produces at least one
character when it starts from the one-step unfolding of Nat.toDigits. -/
theorem toDigits_length_pos (b n : Nat) : 0 < (Nat.toDigits b n).length := by
  unfold Nat.toDigits
  unfold Nat.toDigitsCore
  by_cases h : n / b = 0
  · simp [h]
  · simp only [h, if_false]
    rw [Nat.toDigitsCore_lens_eq]
    exact Nat.succ_pos _

/-- The decimal rendering of a natural number is never empty. -/
theorem nat_repr_ne_empty (n : Nat) : Nat.repr n ≠ "" := by
  intro heq
  have hpos := toDigits_length_pos 10 n
  have hlen : (Nat.repr n).length = 0 := by rw [heq]; rfl
  have : (Nat.toDigits 10 n).length = 0 := by
    simpa [Nat.repr, List.asString, String.length] using hlen
  omega

/-- The decimal rendering of an integer is never empty. -/
theorem int_toString_ne_empty (n : Int) : toString n ≠ "" := by
  cases n with
  | ofNat m => exact nat_repr_ne_empty m
  | negSucc m =>
    intro heq
    have h1 : toString (Int.negSucc m) = "-" ++ toString (Nat.succ m) := rfl
    rw [h1] at heq
    have hlen : ("-" ++ toString (Nat.succ m)).length = 0 := by rw [heq]; rfl
    rw [String.length_append] at hlen
    have hdash : ("-" : String).length = 1 := rfl
    omega

/-- A truthy JSON value binds to a non-NULL, non-empty SQL text. -/
theorem sqlText_of_truthy (v : Jval) (h : v.truthy = true) :
    ∃ txt, v.sqlText = some txt ∧ txt ≠ "" := by
  cases v with
  | null => simp [Jval.truthy] at h
  | bool b =>
    cases b with
    | false => simp [Jval.truthy] at h
    | true => exact ⟨"1", rfl, by decide⟩
  | num n => exact ⟨toString n, rfl, int_toString_ne_empty n⟩
  | str s =>
    have hs : s ≠ "" := by simpa [Jval.truthy] using h
    exact ⟨s, rfl, hs⟩

/-- A string passes the ENUM check exactly when it is one of the two
declared values. -/
theorem validStatus_iff (st : String) :
    validStatus st = true ↔ st = "active" ∨ st = "completed" := by
  simp [validStatus]

/-! Inversion lemmas for the strict-mode row update. -/

/-- Successful outcomes of the status clause: absent field, stored NULL,
or a stored string that passed the ENUM check. -/
theorem updStatus_ok_cases (sf : Option Jval) (u u' : Task)
    (h : updStatus sf u = .ok u') :
    (sf = none ∧ u' = u) ∨
    (sf = some Jval.null ∧ u' = { u with status := none }) ∨
    (∃ st, validStatus st = true ∧ u' = { u with status := some st }) := by
  cases sf with
  | none =>
    simp only [updStatus, Except.ok.injEq] at h
    exact Or.inl ⟨rfl, h.symm⟩
  | some v =>
    cases v with
    | null =>
      simp only [updStatus, Jval.sqlText, Except.ok.injEq] at h
      exact Or.inr (Or.inl ⟨rfl, h.symm⟩)
    | bool b =>
      simp only [updStatus, Jval.sqlText] at h
      cases b with
      | true =>
        rw [if_neg (by decide)] at h
        cases h
      | false =>
        rw [if_neg (by decide)] at h
        cases h
    | num n =>
      simp only [updStatus, Jval.sqlText] at h
      by_cases hv : validStatus (toString n) = true
      · rw [if_pos hv] at h
        cases h
        exact Or.inr (Or.inr ⟨toString n, hv, rfl⟩)
      · rw [if_neg hv] at h
        cases h
    | str st =>
      simp only [updStatus, Jval.sqlText] at h
      by_cases hv : validStatus st = true
      · rw [if_pos hv] at h
        cases h
        exact Or.inr (Or.inr ⟨st, hv, rfl⟩)
      · rw [if_neg hv] at h
        cases h

/-- Successful outcomes of the full SET clause: the task clause is either
absent or stores some bound text, then the status clause runs. -/
theorem updRow_ok_cases (tf sf : Option Jval) (t t' : Task)
    (h : updRow tf sf t = .ok t') :
    (tf = none ∧ updStatus sf t = .ok t') ∨
    (∃ v txt, tf = some v ∧ v.sqlText = some txt ∧
      updStatus sf { t with task := txt } = .ok t') := by
  cases tf with
  | none => exact Or.inl ⟨rfl, h⟩
  | some v =>
    simp only [updRow] at h
    cases hs : v.sqlText with
    | none => rw [hs] at h; cases h
    | some txt =>
      rw [hs] at h
      exact Or.inr ⟨v, txt, rfl, hs, h⟩

/-- The status clause never touches the task column. -/
theorem updStatus_ok_task (sf : Option Jval) (u u' : Task)
    (h : updStatus sf u = .ok u') : u'.task = u.task := by
  rcases updStatus_ok_cases sf u u' h with ⟨_, rfl⟩ | ⟨_, rfl⟩ | ⟨st, _, rfl⟩ <;> rfl

/-- The status clause never touches id or created_at, and leaves status
alone when the field is absent. -/
theorem updStatus_ok_frame (sf : Option Jval) (u u' : Task)
    (h : updStatus sf u = .ok u') :
    u'.id = u.id ∧ u'.created_at = u.created_at ∧
    (sf = none → u'.status = u.status) := by
  cases sf with
  | none =>
    simp only [updStatus, Except.ok.injEq] at h
    subst h
    exact ⟨rfl, rfl, fun _ => rfl⟩
  | some v =>
    rcases updStatus_ok_cases (some v) u u' h with ⟨hn, _⟩ | ⟨_, rfl⟩ | ⟨st, _, rfl⟩
    · cases hn
    · exact ⟨rfl, rfl, fun hc => by cases hc⟩
    · exact ⟨rfl, rfl, fun hc => by cases hc⟩

/-- A successful SET clause preserves id and created_at, and preserves
each column whose field is absent from the request. -/
theorem updRow_ok_frame (tf sf : Option Jval) (t t' : Task)
    (h : updRow tf sf t = .ok t') :
    t'.id = t.id ∧ t'.created_at = t.created_at ∧
    (tf = none → t'.task = t.task) ∧ (sf = none → t'.status = t.status) := by
  rcases updRow_ok_cases tf sf t t' h with ⟨rfl, hst⟩ | ⟨v, txt, rfl, hsql, hst⟩
  · obtain ⟨h1, h2, h3⟩ := updStatus_ok_frame sf t t' hst
    exact ⟨h1, h2, fun _ => updStatus_ok_task sf t t' hst, h3⟩
  · obtain ⟨h1, h2, h3⟩ := updStatus_ok_frame sf { t with task := txt } t' hst
    refine ⟨h1, h2, fun hc => ?_, h3⟩
    cases hc

/-- A successful SET clause keeps the task column non-empty, provided the
request did not supply the empty string for it. -/
theorem updRow_task_nonempty (tf sf : Option Jval) (t t' : Task)
    (htf : tf ≠ some (Jval.str "")) (ht : t.task ≠ "")
    (h : updRow tf sf t = .ok t') : t'.task ≠ "" := by
  rcases updRow_ok_cases tf sf t t' h with ⟨rfl, hst⟩ | ⟨v, txt, rfl, hsql, hst⟩
  · rw [updStatus_ok_task sf t t' hst]
    exact ht
  · rw [updStatus_ok_task sf { t with task := txt } t' hst]
    show txt ≠ ""
    cases v with
    | null => cases hsql
    | bool b =>
      cases b with
      | true =>
        simp [Jval.sqlText] at hsql
        rw [← hsql]
        decide
      | false =>
        simp [Jval.sqlText] at hsql
        rw [← hsql]
        decide
    | num n =>
      simp only [Jval.sqlText, Option.some.injEq] at hsql
      rw [← hsql]
      exact int_toString_ne_empty n
    | str s2 =>
      simp only [Jval.sqlText, Option.some.injEq] at hsql
      rw [← hsql]
      intro hc
      rw [hc] at htf
      exact htf rfl

/-- A successful SET clause keeps the status column inside the
enumeration, provided the request did not supply JSON null for it. -/
theorem updRow_status_valid (tf sf : Option Jval) (t t' : Task)
    (hsf : sf ≠ some Jval.null)
    (ht : t.status = some "active" ∨ t.status = some "completed")
    (h : updRow tf sf t = .ok t') :
    t'.status = some "active" ∨ t'.status = some "completed" := by
  have core : ∀ u u' : Task, u.status = t.status → updStatus sf u = .ok u' →
      u'.status = some "active" ∨ u'.status = some "completed" := by
    intro u u' hu hst
    rcases updStatus_ok_cases sf u u' hst with ⟨_, rfl⟩ | ⟨hn, _⟩ | ⟨st, hval, rfl⟩
    · rw [hu]; exact ht
    · exact absurd hn hsf
    · rcases (validStatus_iff st).mp hval with rfl | rfl
      · exact Or.inl rfl
      · exact Or.inr rfl
  rcases updRow_ok_cases tf sf t t' h with ⟨rfl, hst⟩ | ⟨v, txt, rfl, hsql, hst⟩
  · exact core t t' rfl hst
  · exact core { t with task := txt } t' rfl hst

/-- When no row matches the WHERE clause, the UPDATE succeeds, leaves the
table unchanged and reports zero changed rows, whatever fields were
supplied. -/
theorem dbUpdate_no_match (id : Nat) (tf sf : Option Jval) :
    ∀ rows : List Task, (∀ t ∈ rows, t.id ≠ id) →
      dbUpdate id tf sf rows = .ok (rows, 0)
  | [], _ => rfl
  | t :: ts, h => by
    have ht : t.id ≠ id := h t (List.mem_cons_self t ts)
    have ih := dbUpdate_no_match id tf sf ts (fun x hx => h x (List.mem_cons_of_mem t hx))
    simp [dbUpdate, ht, ih]

/-- Row-by-row description of a successful UPDATE: each output row is the
SET clause applied to a matching input row or an unchanged non-matching
input row, in place. -/
theorem dbUpdate_ok_forall2 (id : Nat) (tf sf : Option Jval) :
    ∀ (rows rows' : List Task) (n : Nat),
      dbUpdate id tf sf rows = .ok (rows', n) →
      List.Forall₂ (fun t t' =>
        (t.id = id ∧ updRow tf sf t = .ok t') ∨ (t.id ≠ id ∧ t' = t)) rows rows'
  | [], rows', n, h => by
    simp only [dbUpdate, Except.ok.injEq, Prod.mk.injEq] at h
    rw [← h.1]
    exact List.Forall₂.nil
  | t :: ts, rows', n, h => by
    rw [dbUpdate] at h
    by_cases hid : t.id = id
    · rw [if_pos hid] at h
      cases hupd : updRow tf sf t with
      | error e => rw [hupd] at h; cases h
      | ok t' =>
        rw [hupd] at h
        cases hrec : dbUpdate id tf sf ts with
        | error e => rw [hrec] at h; cases h
        | ok p =>
          obtain ⟨ts', m⟩ := p
          rw [hrec] at h
          simp only [Except.ok.injEq, Prod.mk.injEq] at h
          rw [← h.1]
          exact List.Forall₂.cons (Or.inl ⟨hid, hupd⟩)
            (dbUpdate_ok_forall2 id tf sf ts ts' m hrec)
    · rw [if_neg hid] at h
      cases hrec : dbUpdate id tf sf ts with
      | error e => rw [hrec] at h; cases h
      | ok p =>
        obtain ⟨ts', m⟩ := p
        rw [hrec] at h
        simp only [Except.ok.injEq, Prod.mk.injEq] at h
        rw [← h.1]
        exact List.Forall₂.cons (Or.inr ⟨hid, rfl⟩)
          (dbUpdate_ok_forall2 id tf sf ts ts' m hrec)

/-- Every element of the right list of a Forall₂ has a related partner in
the left list. -/
theorem forall2_mem_right {α β : Type} {R : α → β → Prop} :
    ∀ {l1 : List α} {l2 : List β}, List.Forall₂ R l1 l2 →
      ∀ b ∈ l2, ∃ a ∈ l1, R a b := by
  intro l1 l2 h
  induction h with
  | nil => intro b hb; cases hb
  | cons hr _ ih =>
    intro b hb
    cases hb with
    | head => exact ⟨_, List.mem_cons_self _ _, hr⟩
    | tail _ hb2 =>
      obtain ⟨a, ha, hab⟩ := ih b hb2
      exact ⟨a, List.mem_cons_of_mem _ ha, hab⟩

/-- The frontend toggle always produces one of the two enum values. -/
theorem validStatus_toggleStatus (st : String) :
    validStatus (toggleStatus st) = true := by
  unfold toggleStatus
  split
  · rfl
  · rfl

/-- A status-only UPDATE with a string from the enumeration always
succeeds and sets the status of every matching row, in place. -/
theorem dbUpdate_status_set (id : Nat) (st : String) (hst : validStatus st = true) :
    ∀ rows : List Task, ∃ n, dbUpdate id none (some (Jval.str st)) rows
      = .ok (rows.map (fun t => if t.id = id then { t with status := some st } else t), n)
  | [] => ⟨0, rfl⟩
  | t :: ts => by
    obtain ⟨n, hn⟩ := dbUpdate_status_set id st hst ts
    by_cases hid : t.id = id
    · have hupd : updRow none (some (Jval.str st)) t
          = .ok { t with status := some st } := by
        simp [updRow, updStatus, Jval.sqlText, hst]
      refine ⟨if { t with status := some st } = t then n else n + 1, ?_⟩
      simp [dbUpdate, hid, hupd, hn]
    · refine ⟨n, ?_⟩
      simp [dbUpdate, hid, hn]

/-- A PUT that only sets a valid status succeeds and updates exactly the
matching rows in the store. -/
theorem putTodos_status_set (id : Nat) (st : String) (hst : validStatus st = true)
    (s : Store) :
    ∃ n, putTodos true id none (some (Jval.str st)) s
      = (.changes "success" n,
         ⟨s.rows.map (fun t => if t.id = id then { t with status := some st } else t),
          s.nextId⟩) := by
  obtain ⟨n, hn⟩ := dbUpdate_status_set id st hst s.rows
  refine ⟨n, ?_⟩
  simp [putTodos, hn]

/-- Request predicate for the amended task invariant: the PUT handler
never validates the task field, so the invariant only survives request
sequences that never supply the empty string as the new task text. -/
def goodReq : Request → Bool
  | .put _ _ tf _ => decide (tf ≠ some (Jval.str ""))
  | _ => true

/-- Request predicate for the amended status invariant: the PUT handler
treats a supplied JSON null as a present field and the status column is
nullable, so the invariant only survives request sequences that never
supply null for status. -/
def statusNotNull : Request → Bool
  | .put _ _ _ sf => decide (sf ≠ some Jval.null)
  | _ => true

/-- Serving one request preserves non-emptiness of every stored task
text, provided a PUT request never supplies the empty string. -/
theorem execReq_taskNonempty (r : Request) (s : Store)
    (hr : goodReq r = true) (hs : ∀ t ∈ s.rows, t.task ≠ "") :
    ∀ t ∈ (execReq r s).rows, t.task ≠ "" := by
  cases r with
  | get dbUp => exact hs
  | del dbUp id =>
    intro t htm
    by_cases hdb : dbUp = false
    · rw [execReq] at htm
      rw [deleteTodos, if_pos hdb] at htm
      exact hs t htm
    · rw [execReq] at htm
      rw [deleteTodos, if_neg hdb] at htm
      exact hs t (List.mem_of_mem_filter htm)
  | post dbUp tf dbNow serverNow =>
    intro t htm
    rw [execReq, postTodos] at htm
    by_cases htruthy : jsTruthy tf = false
    · rw [if_pos htruthy] at htm
      exact hs t htm
    · rw [if_neg htruthy] at htm
      by_cases hdb : dbUp = false
      · rw [if_pos hdb] at htm
        exact hs t htm
      · rw [if_neg hdb] at htm
        simp only [List.mem_append, List.mem_singleton] at htm
        cases htm with
        | inl hold => exact hs t hold
        | inr hnew =>
          cases tf with
          | none => rw [jsTruthy] at htruthy; exact absurd rfl htruthy
          | some v =>
            have hv : v.truthy = true := by
              rw [jsTruthy] at htruthy
              exact eq_true_of_ne_false htruthy
            obtain ⟨txt, hsql, htxt⟩ := sqlText_of_truthy v hv
            rw [hnew]
            show (Option.getD (Jval.sqlText (Option.getD (some v) Jval.null)) "") ≠ ""
            rw [Option.getD_some, hsql, Option.getD_some]
            exact htxt
  | put dbUp id tf sf =>
    intro t' htm
    rw [execReq, putTodos] at htm
    by_cases hempty : (tf.isNone && sf.isNone) = true
    · rw [if_pos hempty] at htm
      exact hs t' htm
    · rw [if_neg hempty] at htm
      by_cases hdb : dbUp = false
      · rw [if_pos hdb] at htm
        exact hs t' htm
      · rw [if_neg hdb] at htm
        cases hq : dbUpdate id tf sf s.rows with
        | error e =>
          rw [hq] at htm
          exact hs t' htm
        | ok p =>
          obtain ⟨rows', n⟩ := p
          rw [hq] at htm
          have hforall := dbUpdate_ok_forall2 id tf sf s.rows rows' n hq
          obtain ⟨t, htmem, hrel⟩ := forall2_mem_right hforall t' htm
          have htf : tf ≠ some (Jval.str "") := by
            have : goodReq (Request.put dbUp id tf sf) = decide (tf ≠ some (Jval.str "")) := rfl
            rw [this] at hr
            exact of_decide_eq_true hr
          cases hrel with
          | inl hmatch => exact updRow_task_nonempty tf sf t t' htf (hs t htmem) hmatch.2
          | inr hkeep => rw [hkeep.2]; exact hs t htmem

/-- Serving one request preserves validity of every stored status,
provided a PUT request never supplies null for status. -/
theorem execReq_statusValid (r : Request) (s : Store)
    (hr : statusNotNull r = true)
    (hs : ∀ t ∈ s.rows, t.status = some "active" ∨ t.status = some "completed") :
    ∀ t ∈ (execReq r s).rows,
      t.status = some "active" ∨ t.status = some "completed" := by
  cases r with
  | get dbUp => exact hs
  | del dbUp id =>
    intro t htm
    by_cases hdb : dbUp = false
    · rw [execReq] at htm
      rw [deleteTodos, if_pos hdb] at htm
      exact hs t htm
    · rw [execReq] at htm
      rw [deleteTodos, if_neg hdb] at htm
      exact hs t (List.mem_of_mem_filter htm)
  | post dbUp tf dbNow serverNow =>
    intro t htm
    rw [execReq, postTodos] at htm
    by_cases htruthy : jsTruthy tf = false
    · rw [if_pos htruthy] at htm
      exact hs t htm
    · rw [if_neg htruthy] at htm
      by_cases hdb : dbUp = false
      · rw [if_pos hdb] at htm
        exact hs t htm
      · rw [if_neg hdb] at htm
        simp only [List.mem_append, List.mem_singleton] at htm
        cases htm with
        | inl hold => exact hs t hold
        | inr hnew => rw [hnew]; exact Or.inl rfl
  | put dbUp id tf sf =>
    intro t' htm
    rw [execReq, putTodos] at htm
    by_cases hempty : (tf.isNone && sf.isNone) = true
    · rw [if_pos hempty] at htm
      exact hs t' htm
    · rw [if_neg hempty] at htm
      by_cases hdb : dbUp = false
      · rw [if_pos hdb] at htm
        exact hs t' htm
      · rw [if_neg hdb] at htm
        cases hq : dbUpdate id tf sf s.rows with
        | error e =>
          rw [hq] at htm
          exact hs t' htm
        | ok p =>
          obtain ⟨rows', n⟩ := p
          rw [hq] at htm
          have hforall := dbUpdate_ok_forall2 id tf sf s.rows rows' n hq
          obtain ⟨t, htmem, hrel⟩ := forall2_mem_right hforall t' htm
          have hsf : sf ≠ some Jval.null := by
            have : statusNotNull (Request.put dbUp id tf sf) = decide (sf ≠ some Jval.null) := rfl
            rw [this] at hr
            exact of_decide_eq_true hr
          cases hrel with
          | inl hmatch => exact updRow_status_valid tf sf t t' hsf (hs t htmem) hmatch.2
          | inr hkeep => rw [hkeep.2]; exact hs t htmem

/-- The task-text invariant survives any sequence of good requests. -/
theorem execAll_taskNonempty (reqs : List Request) (s : Store)
    (hreqs : ∀ r ∈ reqs, goodReq r = true) (hs : ∀ t ∈ s.rows, t.task ≠ "") :
    ∀ t ∈ (execAll reqs s).rows, t.task ≠ "" := by
  induction reqs generalizing s with
  | nil => exact hs
  | cons r rs ih =>
    exact ih (execReq r s) (fun x hx => hreqs x (List.mem_cons_of_mem r hx))
      (execReq_taskNonempty r s (hreqs r (List.mem_cons_self r rs)) hs)

/-- The status invariant survives any sequence of requests that never
supply a null status. -/
theorem execAll_statusValid (reqs : List Request) (s : Store)
    (hreqs : ∀ r ∈ reqs, statusNotNull r = true)
    (hs : ∀ t ∈ s.rows, t.status = some "active" ∨ t.status = some "completed") :
    ∀ t ∈ (execAll reqs s).rows,
      t.status = some "active" ∨ t.status = some "completed" := by
  induction reqs generalizing s with
  | nil => exact hs
  | cons r rs ih =>
    exact ih (execReq r s) (fun x hx => hreqs x (List.mem_cons_of_mem r hx))
      (execReq_statusValid r s (hreqs r (List.mem_cons_self r rs)) hs)

/-! Claim C1. -/

/-- C1 counterexample: the claim says a whitespace-only task text is
rejected with a 400 and no row is added, but the handler only tests JS
truthiness, and a single-space string is truthy: the create succeeds and
a row whose text is the single space is inserted. -/
theorem c1_counterexample :
    (" ").toList.all Char.isWhitespace = true ∧ (" " : String) ≠ "" ∧
    postTodos true (some (.str " ")) 0 0 Store.empty
      = (.created 1 (.str " ") "active" 0, ⟨[⟨1, " ", some "active", 0⟩], 2⟩) := by
  refine ⟨by decide, by decide, by decide⟩

/-- C1 amended: a create whose task text is the empty string fails with
the 400 validation error and leaves the store unchanged — and this is
exact: a create with any non-empty string text (whitespace-only included)
is not rejected but inserts a row. -/
theorem c1_empty_create_rejected (dbNow serverNow : Int) (s : Store) (text : String) :
    (postTodos true (some (.str text)) dbNow serverNow s
        = (.error 400 "Task content is required", s) ↔ text = "") ∧
    (text ≠ "" →
      postTodos true (some (.str text)) dbNow serverNow s
        = (.created s.nextId (.str text) "active" serverNow,
           ⟨s.rows ++ [⟨s.nextId, text, some "active", dbNow⟩], s.nextId + 1⟩)) := by
  by_cases h : text = ""
  · subst h
    constructor
    · constructor
      · intro _
        rfl
      · intro _
        simp [postTodos, jsTruthy, Jval.truthy]
    · intro hc
      exact absurd rfl hc
  · have htruthy : jsTruthy (some (.str text)) = true := by
      simp [jsTruthy, Jval.truthy, h]
    constructor
    · constructor
      · intro heq
        rw [postTodos, htruthy] at heq
        simp at heq
      · intro hc
        exact absurd hc h
    · intro _
      rw [postTodos, htruthy]
      simp [Jval.sqlText]

/-- C1 witness: the amended theorem evaluated at a concrete non-empty
text on the empty store. -/
theorem c1_witness :
    postTodos true (some (.str "x")) 0 0 Store.empty
      = (.created 1 (.str "x") "active" 0,
         ⟨[⟨1, "x", some "active", 0⟩], 2⟩) :=
  (c1_empty_create_rejected 0 0 Store.empty "x").2 (by decide)

/-! Claim C2. -/

/-- C2 counterexample: the claim says no reachable store contains a row
with empty task text, but a PUT whose task field is the empty string is
persisted unvalidated: after creating a task and updating it with the
empty string, the store holds a row with empty text. -/
theorem c2_counterexample :
    ∃ t ∈ (execAll [Request.post true (some (.str "a")) 0 0,
        Request.put true 1 (some (.str "")) none] Store.empty).rows,
      t.task = "" :=
  ⟨⟨1, "", some "active", 0⟩, by decide, rfl⟩

/-- C2 amended: in every store state reachable through the public
operations, no task row has an empty text value, provided every update
request that carries a task field supplies a value other than the empty
string; the update path itself never validates the text. -/
theorem c2_task_never_empty (reqs : List Request)
    (h : ∀ r ∈ reqs, goodReq r = true) :
    ∀ t ∈ (execAll reqs Store.empty).rows, t.task ≠ "" :=
  execAll_taskNonempty reqs Store.empty h
    (fun t ht => absurd ht (List.not_mem_nil t))

/-- C2 witness: the amended invariant evaluated on a concrete two-request
run. -/
theorem c2_witness :
    (⟨1, "b", some "active", 0⟩ : Task).task ≠ "" :=
  c2_task_never_empty
    [Request.post true (some (.str "a")) 0 0,
     Request.put true 1 (some (.str "b")) none]
    (by decide) ⟨1, "b", some "active", 0⟩ (by decide)

/-! Claim C3. -/

/-- C3: when no row carries the requested id, an update with at least one
field present and a delete both succeed, report zero changes in the
success envelope, and leave the store unchanged — a missing id is not an
error. -/
theorem c3_missing_id_zero_changes (id : Nat) (tf sf : Option Jval) (s : Store)
    (hid : ∀ t ∈ s.rows, t.id ≠ id) (hf : tf.isSome ∨ sf.isSome) :
    putTodos true id tf sf s = (.changes "success" 0, s) ∧
    deleteTodos true id s = (.changes "deleted" 0, s) := by
  constructor
  · have hq := dbUpdate_no_match id tf sf s.rows hid
    have hne : (tf.isNone && sf.isNone) = false := by
      cases hf with
      | inl h1 => cases tf with
        | none => cases h1
        | some v => rfl
      | inr h2 => cases sf with
        | none => cases h2
        | some v => simp
    rw [putTodos, hne]
    simp [hq]
  · have hcount : s.rows.countP (fun t => t.id == id) = 0 := by
      rw [List.countP_eq_zero]
      intro t htm
      simpa using hid t htm
    have hfilter : s.rows.filter (fun t => t.id != id) = s.rows := by
      rw [List.filter_eq_self]
      intro t htm
      simpa using hid t htm
    rw [deleteTodos]
    simp [hcount, hfilter]

/-- C3 witness: a concrete store with one row and a request against an
absent id. -/
theorem c3_witness :
    putTodos true 5 (some (Jval.str "x")) none ⟨[⟨1, "a", some "active", 0⟩], 2⟩
      = (.changes "success" 0, ⟨[⟨1, "a", some "active", 0⟩], 2⟩) ∧
    deleteTodos true 5 ⟨[⟨1, "a", some "active", 0⟩], 2⟩
      = (.changes "deleted" 0, ⟨[⟨1, "a", some "active", 0⟩], 2⟩) :=
  c3_missing_id_zero_changes 5 (some (Jval.str "x")) none
    ⟨[⟨1, "a", some "active", 0⟩], 2⟩ (by decide) (Or.inl rfl)

/-! Claim C4. -/

/-- C4 counterexample: the claim says the create response carries the
persisted created_at, but the handler answers with a fresh timestamp from
the Node clock (new Date()) while the stored row gets the database clock
default; when the two clocks read 0 and 1 the response timestamp differs
from the persisted one. -/
theorem c4_counterexample :
    postTodos true (some (.str "Buy milk")) 0 1 Store.empty
      = (.created 1 (.str "Buy milk") "active" 1,
         ⟨[⟨1, "Buy milk", some "active", 0⟩], 2⟩) ∧
    (1 : Int) ≠ (0 : Int) := by
  refine ⟨by decide, by decide⟩

/-- C4 amended: a create with non-empty text inserts exactly one row
carrying the fresh auto-increment id (new to the store whenever all
existing ids are below the counter), the same text, status active and the
database-side creation timestamp, and returns the assigned id, the text
and status active — together with a response timestamp taken from the
Node clock at response time, which is not read back from the store. -/
theorem c4_create_inserts_row (text : String) (dbNow serverNow : Int) (s : Store)
    (ht : text ≠ "") (hfresh : ∀ t ∈ s.rows, t.id < s.nextId) :
    postTodos true (some (.str text)) dbNow serverNow s
      = (.created s.nextId (.str text) "active" serverNow,
         ⟨s.rows ++ [⟨s.nextId, text, some "active", dbNow⟩], s.nextId + 1⟩) ∧
    ∀ t ∈ s.rows, t.id ≠ s.nextId := by
  constructor
  · have htruthy : jsTruthy (some (.str text)) = true := by
      simp [jsTruthy, Jval.truthy, ht]
    rw [postTodos, htruthy]
    simp [Jval.sqlText]
  · intro t htm
    exact Nat.ne_of_lt (hfresh t htm)

/-- C4 witness: the amended theorem evaluated on the empty store. -/
theorem c4_witness :
    postTodos true (some (.str "Buy milk")) 3 7 Store.empty
      = (.created 1 (.str "Buy milk") "active" 7,
         ⟨[⟨1, "Buy milk", some "active", 3⟩], 2⟩) ∧
    ∀ t ∈ Store.empty.rows, t.id ≠ Store.empty.nextId :=
  c4_create_inserts_row "Buy milk" 3 7 Store.empty (by decide)
    (fun t ht => absurd ht (List.not_mem_nil t))

/-! Claim C5. -/

/-- C5: frame property of update.  Whatever the outcome, a PUT never
touches the auto-increment counter, never changes a row's id or
created_at, leaves every row with a different id entirely unchanged, and
leaves each of task and status unchanged when its field is absent from
the request. -/
theorem c5_update_frame (id : Nat) (tf sf : Option Jval) (s : Store) :
    (putTodos true id tf sf s).2.nextId = s.nextId ∧
    List.Forall₂ (fun t t' =>
        t'.id = t.id ∧ t'.created_at = t.created_at ∧
        (t.id ≠ id → t' = t) ∧ (tf = none → t'.task = t.task) ∧
        (sf = none → t'.status = t.status))
      s.rows (putTodos true id tf sf s).2.rows := by
  have hrefl : List.Forall₂ (fun t t' =>
      t'.id = t.id ∧ t'.created_at = t.created_at ∧
      (t.id ≠ id → t' = t) ∧ (tf = none → t'.task = t.task) ∧
      (sf = none → t'.status = t.status)) s.rows s.rows := by
    rw [List.forall₂_same]
    exact fun t _ => ⟨rfl, rfl, fun _ => rfl, fun _ => rfl, fun _ => rfl⟩
  rw [putTodos]
  by_cases hempty : (tf.isNone && sf.isNone) = true
  · rw [if_pos hempty]
    exact ⟨rfl, hrefl⟩
  · rw [if_neg hempty, if_neg (by decide)]
    cases hq : dbUpdate id tf sf s.rows with
    | error e => exact ⟨rfl, hrefl⟩
    | ok p =>
      obtain ⟨rows', n⟩ := p
      refine ⟨rfl, ?_⟩
      have hforall := dbUpdate_ok_forall2 id tf sf s.rows rows' n hq
      refine List.Forall₂.imp ?_ hforall
      intro t t' hrel
      cases hrel with
      | inl hmatch =>
        obtain ⟨hid, hupd⟩ := hmatch
        obtain ⟨h1, h2, h3, h4⟩ := updRow_ok_frame tf sf t t' hupd
        exact ⟨h1, h2, fun hc => absurd hid hc, h3, h4⟩
      | inr hkeep =>
        obtain ⟨hid, rfl⟩ := hkeep
        exact ⟨rfl, rfl, fun _ => rfl, fun _ => rfl, fun _ => rfl⟩

/-- C5 witness: the frame theorem evaluated on a concrete store, showing
a task-only update on one row leaves the counter in place. -/
theorem c5_witness :
    (putTodos true 1 (some (Jval.str "b")) none
      ⟨[⟨1, "a", some "active", 5⟩], 2⟩).2.nextId = 2 :=
  (c5_update_frame 1 (some (Jval.str "b")) none
    ⟨[⟨1, "a", some "active", 5⟩], 2⟩).1

/-! Claim C6. -/

/-- C6: listing returns, inside the success envelope, exactly the stored
tasks (a permutation of the table) ordered by created_at descending, and
fails only when the storage layer is unavailable, in which case the
storage error is propagated as a 400. -/
theorem c6_list_sorted_desc (s : Store) :
    listTodos true s = .success (s.rows.insertionSort createdGE) ∧
    List.Perm (s.rows.insertionSort createdGE) s.rows ∧
    List.Sorted createdGE (s.rows.insertionSort createdGE) ∧
    listTodos false s = .error 400 storageErr :=
  ⟨rfl, List.perm_insertionSort createdGE s.rows,
   List.sorted_insertionSort createdGE s.rows, rfl⟩

/-! Claim C7. -/

/-- C7: an update request carrying neither field is rejected with the 400
validation error before any query is issued — the result is the same
whether or not the storage layer is reachable — and the store is
unchanged. -/
theorem c7_no_fields_rejected (dbUp : Bool) (id : Nat) (s : Store) :
    putTodos dbUp id none none s = (.error 400 "No fields to update", s) := rfl

/-! Claim C8. -/

/-- C8 counterexample: the claim says update keeps every status inside
the two defined values for every supplied status, but the handler treats
a supplied JSON null as a present field and the status column carries no
NOT NULL constraint, so updating with null persists a NULL status that is
neither value. -/
theorem c8_counterexample :
    ∃ t ∈ (execAll [Request.post true (some (.str "a")) 0 0,
        Request.put true 1 none (some .null)] Store.empty).rows,
      t.status ≠ some "active" ∧ t.status ≠ some "completed" :=
  ⟨⟨1, "a", none, 0⟩, by decide, by decide, by decide⟩

/-- C8 amended: in every store state reachable through the public
operations, every status is one of the two defined values, provided no
update request supplies JSON null for status; any invalid status string
is rejected by the strict-mode ENUM check, so string-valued updates do
preserve the invariant. -/
theorem c8_status_always_valid (reqs : List Request)
    (h : ∀ r ∈ reqs, statusNotNull r = true) :
    ∀ t ∈ (execAll reqs Store.empty).rows,
      t.status = some "active" ∨ t.status = some "completed" :=
  execAll_statusValid reqs Store.empty h
    (fun t ht => absurd ht (List.not_mem_nil t))

/-- C8 witness: the amended invariant evaluated on a concrete run that
creates a task and completes it. -/
theorem c8_witness :
    (⟨1, "a", some "completed", 0⟩ : Task).status = some "active" ∨
    (⟨1, "a", some "completed", 0⟩ : Task).status = some "completed" :=
  c8_status_always_valid
    [Request.post true (some (.str "a")) 0 0,
     Request.put true 1 none (some (.str "completed"))]
    (by decide) ⟨1, "a", some "completed", 0⟩ (by decide)

/-! Claim C9. -/

/-- C9: toggling the status of an existing task twice restores the store
exactly: sending the opposite of the row's current status and then the
opposite of the new status leaves every row and the counter as they
started. -/
theorem c9_toggle_twice_restores (id : Nat) (st : String) (s : Store)
    (hst : st = "active" ∨ st = "completed")
    (hrow : ∀ t ∈ s.rows, t.id = id → t.status = some st) :
    (putTodos true id none (some (.str (toggleStatus (toggleStatus st))))
       (putTodos true id none (some (.str (toggleStatus st))) s).2).2 = s := by
  obtain ⟨n1, h1⟩ := putTodos_status_set id (toggleStatus st)
    (validStatus_toggleStatus st) s
  rw [h1]
  obtain ⟨n2, h2⟩ := putTodos_status_set id (toggleStatus (toggleStatus st))
    (validStatus_toggleStatus (toggleStatus st))
    ⟨s.rows.map (fun t => if t.id = id
        then { t with status := some (toggleStatus st) } else t), s.nextId⟩
  rw [h2]
  have htt : toggleStatus (toggleStatus st) = st := by
    rcases hst with rfl | rfl
    · rfl
    · rfl
  show (⟨List.map _ (List.map _ s.rows), s.nextId⟩ : Store) = s
  rw [List.map_map]
  have hpt : ∀ t ∈ s.rows,
      ((fun t => if t.id = id then { t with status := some (toggleStatus (toggleStatus st)) } else t) ∘
        (fun t => if t.id = id then { t with status := some (toggleStatus st) } else t)) t = t := by
    intro t htm
    simp only [Function.comp_apply]
    by_cases hid : t.id = id
    · have hstatus := hrow t htm hid
      have h3 : ({ t with status := some (toggleStatus st) } : Task).id = id := hid
      rw [if_pos hid, if_pos h3, htt]
      cases t with
      | mk tid ttask tstatus tcreated =>
        simp only [Task.mk.injEq, true_and, and_true]
        exact hstatus.symm
    · rw [if_neg hid, if_neg hid]
  rw [List.map_congr_left hpt, List.map_id']

/-- C9 witness: toggling a concrete active task twice gives back the
original store. -/
theorem c9_witness :
    (putTodos true 1 none (some (.str (toggleStatus (toggleStatus "active"))))
       (putTodos true 1 none (some (.str (toggleStatus "active")))
         ⟨[⟨1, "a", some "active", 5⟩], 2⟩).2).2
      = ⟨[⟨1, "a", some "active", 5⟩], 2⟩ :=
  c9_toggle_twice_restores 1 "active" ⟨[⟨1, "a", some "active", 5⟩], 2⟩
    (Or.inl rfl) (by decide)

/-! Claim C10. -/

/-- C10: the presence test of the create handler is JS truthiness, so a
missing task field and every falsy supplied value — null, the empty
string, the number 0, false — are rejected alike with the 400 validation
error, before the store is consulted (the outcome is identical whether or
not storage is reachable) and without touching the store. -/
theorem c10_falsy_task_rejected (tf : Option Jval) (dbUp : Bool)
    (dbNow serverNow : Int) (s : Store) :
    (jsTruthy tf = false ↔
      (tf = none ∨ tf = some .null ∨ tf = some (.str "") ∨ tf = some (.num 0) ∨
        tf = some (.bool false))) ∧
    (jsTruthy tf = false →
      postTodos dbUp tf dbNow serverNow s
        = (.error 400 "Task content is required", s)) := by
  constructor
  · cases tf with
    | none => simp [jsTruthy]
    | some v =>
      cases v with
      | null => simp [jsTruthy, Jval.truthy]
      | bool b => cases b <;> simp [jsTruthy, Jval.truthy]
      | num n => simp [jsTruthy, Jval.truthy]
      | str s2 => simp [jsTruthy, Jval.truthy]
  · intro h
    rw [postTodos, h]
    rfl

/-- C10 witness: the number 0 as the task field is rejected exactly like
a missing field, with the store unchanged even though storage is down. -/
theorem c10_witness :
    postTodos false (some (Jval.num 0)) 0 0 Store.empty
      = (.error 400 "Task content is required", Store.empty) :=
  (c10_falsy_task_rejected (some (Jval.num 0)) false 0 0 Store.empty).2 (by decide)

end TodoApp
